import Mathlib

/-!
Verification of the ImageProcessor repository (Go) against its
natural-language specification.

The Go source is shallowly embedded: pure helpers become Lean functions,
effectful flows (upload, worker message handling, delete) become functions
from an explicit environment (the outcomes of the external stores) to a
result together with the list of I/O actions issued, in program order.
Real-number arithmetic performed by the source in float64 is modelled
exactly over ℚ; every theorem that depends on a float computation is
robust to rounding at the inputs used.  Go byte strings are modelled by
Lean `String` and byte payloads by `List Nat`.
-/

namespace ImageProc

/-! ## Go string primitives

Models of the Go standard-library string functions the repository calls.
`goStartsWith s pre` is `strings.HasPrefix(s, pre)`, `goContains s sub`
is `strings.Contains(s, sub)`, `goTrimStart s pre` is
`strings.TrimPrefix(s, pre)`, `goSplitChar s c` is `strings.Split(s, c)`
for a one-character separator, `goRemoveSpaces` is
`strings.ReplaceAll(s, " ", "")`. -/

def goStartsWith (s pre : String) : Bool :=
  pre.data.isPrefixOf s.data

def listIsInfix (sub : List Char) : List Char → Bool
  | [] => sub.isEmpty
  | x :: xs => sub.isPrefixOf (x :: xs) || listIsInfix sub xs

def goContains (s sub : String) : Bool :=
  listIsInfix sub.data s.data

def goTrimStart (s pre : String) : String :=
  if goStartsWith s pre then ⟨s.data.drop pre.data.length⟩ else s

def splitCharList (c : Char) : List Char → List (List Char)
  | [] => [[]]
  | x :: xs =>
    if x = c then [] :: splitCharList c xs
    else
      match splitCharList c xs with
      | h :: t => (x :: h) :: t
      | [] => [[x]]

def goSplitChar (s : String) (c : Char) : List String :=
  (splitCharList c s.data).map fun l => ⟨l⟩

def goRemoveSpaces (s : String) : String :=
  ⟨s.data.filter (fun ch => ch ≠ ' ')⟩

def charLower (ch : Char) : Char :=
  if 'A' ≤ ch ∧ ch ≤ 'Z' then Char.ofNat (ch.toNat + 32) else ch

/-- Go `strings.ToLower` on the ASCII strings the repository feeds it
(format tags and operation names). -/
def goToLower (s : String) : String :=
  ⟨s.data.map charLower⟩

/-- Model of Go `strconv.Atoi`: optional sign, one or more decimal digits,
64-bit range; `none` models a non-nil error. -/
def goAtoi (s : String) : Option Int :=
  let core : Int → List Char → Option Int := fun sign ds =>
    if ds = [] then none
    else if ds.all (fun ch => ch.isDigit) then
      let n : Nat := ds.foldl (fun a ch => a * 10 + (ch.toNat - 48)) 0
      let v : Int := sign * (n : Int)
      if -(2 ^ 63) ≤ v ∧ v ≤ 2 ^ 63 - 1 then some v else none
    else none
  match s.data with
  | '+' :: r => core 1 r
  | '-' :: r => core (-1) r
  | r => core 1 r

/-- Go conversion `int(x)` of a nonnegative-or-negative real value:
truncation toward zero.  The source applies it only to values whose
float64 computation agrees with the exact rational one at the inputs of
every theorem below. -/
def goTruncQ (q : ℚ) : Int :=
  if q < 0 then ⌈q⌉ else ⌊q⌋

/-! ## Domain constants (internal/domain) -/

def StatusUploaded : String := "uploaded"
def StatusProcessing : String := "processing"
def StatusCompleted : String := "completed"
def StatusFailed : String := "failed"
def StatusDeleted : String := "deleted"

def DefaultMaxUploadSize : Int := 32 * 2 ^ 20
def DefaultThumbnailSize : Int := 200
def DefaultWatermarkOpacity : ℚ := 1 / 2

/-- Heterogeneous values stored in a Go `map[string]interface{}` of
operation parameters; the tag records the dynamic Go type so that the
type switches of the source can be reproduced. -/
inductive GoValue where
  | float (q : ℚ)
  | int (n : Int)
  | int64 (n : Int)
  | int32 (n : Int)
  | bool (b : Bool)
  | str (s : String)
  deriving DecidableEq, Repr

/-- `map[string]interface{}` modelled as an association list. -/
abbrev GoParams := List (String × GoValue)

def lookupParam (params : GoParams) (key : String) : Option GoValue :=
  (params.find? (fun p => p.1 = key)).map Prod.snd

/-- Operation descriptor `domain.OperationParams`. -/
structure OperationParams where
  type : String
  parameters : GoParams
  deriving DecidableEq, Repr

/-- `domain.ProcessingTask` (the broker payload). -/
structure ProcessingTask where
  id : String
  imageID : String
  originalPath : String
  bucket : String
  operations : List OperationParams
  format : String
  deriving DecidableEq, Repr

/-! ## internal/usecase/image: getFormatFromContentType -/

/-- Source `getFormatFromContentType` (image.go): a `switch` on
`strings.Contains` probes, defaulting to `FormatJPEG`. -/
def getFormatFromContentType (contentType : String) : String :=
  if goContains contentType "jpeg" then "jpeg"
  else if goContains contentType "png" then "png"
  else if goContains contentType "gif" then "gif"
  else if goContains contentType "webp" then "webp"
  else if goContains contentType "bmp" then "bmp"
  else if goContains contentType "tiff" then "tiff"
  else "jpeg"

/-! ## internal/usecase/processor: generatePath -/

/-- The width/height/size probe of `generatePath`: only the `float64` and
`int` dynamic types are tried (unlike the operation processors, which
also try `int64`/`int32`); anything else leaves the Go zero value 0. -/
def probeFloatOrInt (params : GoParams) (key : String) : Int :=
  match lookupParam params key with
  | some (GoValue.float q) => goTruncQ q
  | some (GoValue.int n) => n
  | _ => 0

/-- Source `ImageProcessor.generatePath` (image_processor.go): the
deterministic derived-artifact path for one operation. -/
def generatePath (imageID : String) (operation : String) (format : String)
    (params : GoParams) : String :=
  let basePath := "processed/"
  if operation = "resize" then
    let width := probeFloatOrInt params "width"
    let height := probeFloatOrInt params "height"
    basePath ++ "resize/" ++ imageID ++ "/" ++ toString width ++ "x" ++
      toString height ++ "." ++ format
  else if operation = "thumbnail" then
    let size0 := probeFloatOrInt params "size"
    let size := if size0 = 0 then DefaultThumbnailSize else size0
    basePath ++ "thumbnails/" ++ imageID ++ "/" ++ toString size ++ "." ++ format
  else if operation = "watermark" then
    basePath ++ "watermarked/" ++ imageID ++ "/watermarked." ++ format
  else
    basePath ++ goToLower operation ++ "/" ++ imageID ++ "/processed." ++ format

/-! ## I/O actions

Every adapter call the modelled flows issue is recorded as an `Action`,
in program order.  `deleteObjectsUnder` is the adapter's
`DeleteObjectsWithPrefix` (bulk removal of every key that extends the
argument).  `saveRow` is `SaveProcessedImage`; its `ok` flag records the
outcome because the worker swallows that error. -/
inductive Action where
  | saveOriginal (filename : String)
  | deleteObject (path : String)
  | deleteObjectsUnder (pre : String)
  | dbSave (id : String)
  | sendTask (key : String)
  | updateStatus (id : String) (status : String)
  | getObject (path : String)
  | saveProcessed (path : String)
  | saveRow (imageID : String) (operation : String) (path : String) (ok : Bool)
  | deleteProcessedImages (imageID : String)
  | commitOffset (offset : Int)
  deriving DecidableEq, Repr

/-! ## Watermark operation (operations/thumbnail.go, watermark segment) -/

/-- An `image/color.RGBA` value; each field is a uint8 in 0..255. -/
structure RGBA where
  r : Nat
  g : Nat
  b : Nat
  a : Nat
  deriving DecidableEq, Repr

/-- Source `clamp`: `int(math.Max(float64(min), math.Min(float64(max),
float64(value))))`.  The float64 round trip is exact for every int64
whose clamped result lies in 0..255, so the model is the integer clamp. -/
def clamp (value lo hi : Int) : Int :=
  max lo (min hi value)

/-- Go `uint8(q)` for a float value; the source applies it only to
`255 * opacity` with opacity in (0, 1], where the conversion is plain
truncation. -/
def uint8OfQ (q : ℚ) : Nat :=
  (goTruncQ q).toNat

def DefaultWatermarkText : String := "© ImageProcessor"

/-- Source `parseColor` (thumbnail.go): splits the string on commas after
removing spaces, parses the first three components with `strconv.Atoi`,
clamps to 0..255; a wrong component count or a failing parse of any of
the first three components returns the fallback white colour together
with a non-nil error (modelled by the `Bool`); the alpha defaults to
`uint8(255 * opacity)`. -/
def parseColor (colorStr : String) (opacity : ℚ) : RGBA × Bool :=
  let cleaned := goRemoveSpaces colorStr
  let parts := goSplitChar cleaned ','
  if parts.length ≠ 3 ∧ parts.length ≠ 4 then
    (⟨255, 255, 255, uint8OfQ (255 * opacity)⟩, true)
  else
    match goAtoi (parts.getD 0 ""), goAtoi (parts.getD 1 ""), goAtoi (parts.getD 2 "") with
    | some r, some g, some b =>
      let r := clamp r 0 255
      let g := clamp g 0 255
      let b := clamp b 0 255
      let a : Nat :=
        if parts.length = 4 then
          match goAtoi (parts.getD 3 "") with
          | some aVal => (clamp aVal 0 255).toNat
          | none => uint8OfQ (255 * opacity)
        else uint8OfQ (255 * opacity)
      (⟨r.toNat, g.toNat, b.toNat, a⟩, false)
    | _, _, _ => (⟨255, 255, 255, uint8OfQ (255 * opacity)⟩, true)

/-- Outcomes of the external effects inside the watermark operation: the
bundled font parsing, `freetype` text drawing and the image encoder. -/
structure WatermarkEnv where
  fontLoaded : Bool
  drawOk : Bool
  encodeOk : Bool
  deriving DecidableEq, Repr

/-- Source `Watermarker.addTextWatermark`, restricted to its observables:
which colour is used (a parse error is printed and replaced by black with
the same default alpha, never propagated) and whether the function fails.
The glyph-advance geometry computes only the pixel anchor of the text and
is not an observable of this model. -/
def addTextWatermark (env : WatermarkEnv) (opacity : ℚ) (fontColorStr : String) :
    Except String RGBA :=
  if env.fontLoaded = false then Except.error "font not loaded"
  else
    let parsed := parseColor fontColorStr opacity
    let col := if parsed.2 then (⟨0, 0, 0, uint8OfQ (255 * opacity)⟩ : RGBA) else parsed.1
    if env.drawOk = false then Except.error "failed to draw watermark text"
    else Except.ok col

/-- The parameter probes at the top of `Watermarker.Process`. -/
def watermarkOpacity (params : GoParams) : ℚ :=
  match lookupParam params "opacity" with
  | some (GoValue.float q) => if q ≤ 0 then DefaultWatermarkOpacity else q
  | _ => DefaultWatermarkOpacity

def watermarkFontColor (params : GoParams) : String :=
  match lookupParam params "font_color" with
  | some (GoValue.str c) => c
  | _ => "255,255,255"

/-- Source `Watermarker.Process`: probes the parameters, watermarks, then
encodes; `gif` input is deliberately re-encoded as `jpeg`.  Returns the
colour drawn and the resulting format string. -/
def watermarkProcess (env : WatermarkEnv) (format : String) (params : GoParams) :
    Except String (RGBA × String) :=
  let opacity := watermarkOpacity params
  let fontColor := watermarkFontColor params
  match addTextWatermark env opacity fontColor with
  | Except.error e => Except.error ("failed to add watermark: " ++ e)
  | Except.ok col =>
    let lower := goToLower format
    let outFormat :=
      if lower = "jpg" ∨ lower = "jpeg" then "jpeg"
      else if lower = "png" then "png"
      else if lower = "gif" then "jpeg"
      else "jpeg"
    if env.encodeOk = false then Except.error "failed to encode watermarked image"
    else Except.ok (col, outFormat)

/-! ## Resize operation (operations/resize.go) -/

/-- The width/height probe of `Resizer.Process`: dynamic types `float64`,
`int`, `int64`, `int32` are tried in that order; `none` models the
"parameter is required" error. -/
def probeNumeric (params : GoParams) (key : String) : Option Int :=
  match lookupParam params key with
  | some (GoValue.float q) => some (goTruncQ q)
  | some (GoValue.int n) => some n
  | some (GoValue.int64 n) => some n
  | some (GoValue.int32 n) => some n
  | _ => none

def probeBool (params : GoParams) (key : String) : Bool :=
  match lookupParam params key with
  | some (GoValue.bool b) => b
  | _ => false

/-- The keep-aspect branch of `processStaticImage` / `processGIF`:
`ratio = min(width/origWidth, height/origHeight)` in float64 arithmetic
(modelled exactly over ℚ), and the new dimensions are the Go `int(...)`
conversions, i.e. truncations toward zero. -/
def keepAspectDims (origWidth origHeight width height : Int) : Int × Int :=
  let widthRatio : ℚ := (width : ℚ) / (origWidth : ℚ)
  let heightRatio : ℚ := (height : ℚ) / (origHeight : ℚ)
  let ratio := min widthRatio heightRatio
  (goTruncQ ((origWidth : ℚ) * ratio), goTruncQ ((origHeight : ℚ) * ratio))

/-- Source `Resizer.Process` on an image of the given decoded bounds:
parameter validation, dimension computation, and the encoder switch (the
`gif` source format goes through `processGIF` and stays `gif`).  Returns
the output dimensions and the resulting format string. -/
def resizerProcess (encodeOk : Bool) (origWidth origHeight : Int) (format : String)
    (params : GoParams) : Except String (Int × Int × String) :=
  match probeNumeric params "width" with
  | none => Except.error "width parameter is required and must be a number"
  | some width =>
    match probeNumeric params "height" with
    | none => Except.error "height parameter is required and must be a number"
    | some height =>
      if width ≤ 0 ∨ height ≤ 0 then
        Except.error "width and height must be positive numbers"
      else
        let keepAspect := probeBool params "keep_aspect"
        let dims :=
          if keepAspect then keepAspectDims origWidth origHeight width height
          else (width, height)
        let lower := goToLower format
        let outFormat :=
          if lower = "gif" then "gif"
          else if lower = "jpg" ∨ lower = "jpeg" then "jpeg"
          else if lower = "png" then "png"
          else "jpeg"
        if encodeOk = false then Except.error "failed to encode resized image"
        else Except.ok (dims.1, dims.2, outFormat)

/-! ## Object store adapter (repository/image/cloud/minio/minio.go) -/

/-- Lexical path cleaning: the component processing of Go
`path/filepath.Clean` on slash-separated paths (empty and `.` components
dropped; `..` cancels a preceding component, is dropped at the root of a
rooted path, and is kept leading in a relative path). -/
def cleanComponents (rooted : Bool) : List String → List String → List String
  | [], acc => acc.reverse
  | c :: rest, acc =>
    if c = "" ∨ c = "." then cleanComponents rooted rest acc
    else if c = ".." then
      match acc with
      | [] =>
        if rooted then cleanComponents rooted rest []
        else cleanComponents rooted rest [".."]
      | a :: as =>
        if a = ".." then cleanComponents rooted rest (".." :: a :: as)
        else cleanComponents rooted rest as
    else cleanComponents rooted rest (c :: acc)

def joinSlash : List String → String
  | [] => ""
  | [c] => c
  | c :: rest => c ++ "/" ++ joinSlash rest

/-- Go `filepath.Clean` (slash separator). -/
def filepathClean (path : String) : String :=
  if path = "" then "."
  else
    let rooted := goStartsWith path "/"
    let joined := joinSlash (cleanComponents rooted (goSplitChar path '/') [])
    if rooted then "/" ++ joined
    else if joined = "" then "." else joined

/-- Source `sanitizePath` (minio.go): clean, reject when the cleaned path
has prefix `..` or contains `/../`, then strip one leading `/`. -/
def sanitizePath (path : String) : Except String String :=
  let clean := filepathClean path
  if goStartsWith clean ".." ∨ goContains clean "/../" then
    Except.error "invalid path: path traversal detected"
  else
    Except.ok (goTrimStart clean "/")

/-- Source `FileRepository.GetObject`: sanitise, then perform the store
I/O (recorded as an action); a failing `Stat` yields `object not found`. -/
def minioGetObject (statOk : Bool) (path : String) :
    Except String String × List Action :=
  match sanitizePath path with
  | Except.error e => (Except.error e, [])
  | Except.ok safePath =>
    if statOk = false then (Except.error "object not found", [Action.getObject safePath])
    else (Except.ok safePath, [Action.getObject safePath])

/-! ## Ingest coordinator (internal/usecase/image/image.go, UploadImage) -/

structure ImageRec where
  id : String
  mimeType : String
  status : String
  originalPath : String
  deriving DecidableEq, Repr

inductive UploadErr where
  | fileTooLarge
  | readHeader
  | invalidFileFormat
  | storageError
  | databaseError
  | messageQueueError
  deriving DecidableEq, Repr

instance {ε α : Type} [DecidableEq ε] [DecidableEq α] : DecidableEq (Except ε α)
  | Except.error e, Except.error f =>
    if h : e = f then isTrue (by rw [h]) else isFalse (by intro c; cases c; exact h rfl)
  | Except.error _, Except.ok _ => isFalse (by intro c; cases c)
  | Except.ok _, Except.error _ => isFalse (by intro c; cases c)
  | Except.ok a, Except.ok b =>
    if h : a = b then isTrue (by rw [h]) else isFalse (by intro c; cases c; exact h rfl)

/-- Outcomes of the collaborators `UploadImage` calls: the magic-byte
classifier `http.DetectContentType`, the generated UUIDs, and the
success/failure of each store operation. -/
structure UploadEnv where
  detect : List Nat → String
  imageID : String
  taskID : String
  saveOriginalResult : Option String
  dbSaveOk : Bool
  marshalOk : Bool
  sendTaskOk : Bool
  updateProcessingOk : Bool

structure UploadOutcome where
  result : Except UploadErr ImageRec
  task : Option ProcessingTask
  actions : List Action
  deriving DecidableEq, Repr

/-- Source `ImageUsecase.UploadImage` (the variant with magic-byte
detection and the deferred cleanup).  `payload` is the full byte stream;
`io.ReadFull` of the 512-byte header returns `io.EOF` on an empty stream
(a failure the code keeps) and `io.ErrUnexpectedEOF` on a short read (a
failure the code forgives).  The deferred function deletes the stored
original whenever the function-scoped `err` is non-nil at return and
`originalPath` is non-empty; this includes the final return when only the
status transition to `processing` failed, since that leaves `err`
non-nil even though the upload is reported as a success. -/
def uploadImage (env : UploadEnv) (payload : List Nat) (filename contentType : String)
    (fileSize : Int) (operations : List OperationParams) : UploadOutcome :=
  if fileSize > DefaultMaxUploadSize then ⟨Except.error UploadErr.fileTooLarge, none, []⟩
  else if payload = [] then ⟨Except.error UploadErr.readHeader, none, []⟩
  else
    let detectedType := env.detect (payload.take 512)
    if goStartsWith detectedType "image/" = false then
      ⟨Except.error UploadErr.invalidFileFormat, none, []⟩
    else
      match env.saveOriginalResult with
      | none => ⟨Except.error UploadErr.storageError, none, [Action.saveOriginal filename]⟩
      | some originalPath =>
        let acts1 := [Action.saveOriginal filename, Action.dbSave env.imageID]
        let cleanup := [Action.deleteObject originalPath]
        if env.dbSaveOk = false then
          ⟨Except.error UploadErr.databaseError, none, acts1 ++ cleanup⟩
        else
          let task : ProcessingTask :=
            { id := env.taskID
              imageID := env.imageID
              originalPath := originalPath
              bucket := "images"
              operations := operations
              format := getFormatFromContentType detectedType }
          if env.marshalOk = false then
            ⟨Except.error UploadErr.messageQueueError, some task, acts1 ++ cleanup⟩
          else if env.sendTaskOk = false then
            ⟨Except.error UploadErr.messageQueueError, some task,
              acts1 ++ [Action.sendTask env.imageID,
                Action.updateStatus env.imageID StatusFailed] ++ cleanup⟩
          else if env.updateProcessingOk = false then
            let img : ImageRec :=
              { id := env.imageID, mimeType := detectedType,
                status := StatusUploaded, originalPath := originalPath }
            ⟨Except.ok img, some task,
              acts1 ++ [Action.sendTask env.imageID,
                Action.updateStatus env.imageID StatusProcessing] ++ cleanup⟩
          else
            let img : ImageRec :=
              { id := env.imageID, mimeType := detectedType,
                status := StatusProcessing, originalPath := originalPath }
            ⟨Except.ok img, some task,
              acts1 ++ [Action.sendTask env.imageID,
                Action.updateStatus env.imageID StatusProcessing]⟩

/-! ## Delete flow (internal/usecase/image/image.go, DeleteImage) -/

inductive DeleteErr where
  | imageNotFound
  | databaseError
  deriving DecidableEq, Repr

/-- Source `ImageUsecase.DeleteImage`: the failures of the object
deletion, the bulk prefix deletion and the `processed_images` row
deletion are only logged, so the flow and its result do not depend on
them; only `GetByID` and the final `UpdateStatus(deleted)` decide the
result. -/
def deleteImage (getImage : Option ImageRec) (updateDeletedOk : Bool) (id : String) :
    Except DeleteErr Unit × List Action :=
  match getImage with
  | none => (Except.error DeleteErr.imageNotFound, [])
  | some img =>
    let acts := [Action.deleteObject img.originalPath,
                 Action.deleteObjectsUnder ("processed/" ++ id ++ "/"),
                 Action.deleteProcessedImages id,
                 Action.updateStatus id StatusDeleted]
    if updateDeletedOk = false then (Except.error DeleteErr.databaseError, acts)
    else (Except.ok (), acts)

/-- Effect of one action on the object store (a list of object keys),
with every store operation succeeding: `deleteObjectsUnder` removes
exactly the keys having the argument as a prefix. -/
def applyActionStore (store : List String) : Action → List String
  | Action.deleteObject p => store.filter (fun k => k ≠ p)
  | Action.deleteObjectsUnder pre => store.filter (fun k => goStartsWith k pre = false)
  | Action.saveProcessed p => if store.contains p then store else store ++ [p]
  | _ => store

def runStore (store : List String) (acts : List Action) : List String :=
  acts.foldl applyActionStore store

/-! ## Worker (internal/worker/worker.go and usecase/processor) -/

structure ProcessingResult where
  status : String
  processedPaths : List (String × String)
  error : String
  deriving DecidableEq, Repr

/-- Outcomes of the worker's collaborators: task deserialization, the
original-object fetch and read, the decoder, each operation processor
(returning the processed format on success), the per-path object-store
write, and the per-path `processed_images` insert. -/
structure WorkerEnv where
  parseTask : Option ProcessingTask
  getObjectOk : Bool
  readAllOk : Bool
  decodeOk : Bool
  decodedFormat : String
  applyOp : OperationParams → String → Option String
  saveProcessedOk : String → Bool
  saveRowOk : String → Bool

/-- The operation loop of `ImageProcessor.Process`: each operation is
applied, its artifact written at the generated path; the first failure
stops the loop, keeping the artifacts recorded so far.  Returns the
recorded `(operation, path)` pairs, the store actions, and the error. -/
def processOps (env : WorkerEnv) (task : ProcessingTask) (targetFormat : String) :
    List OperationParams → List (String × String) → List Action →
    List (String × String) × List Action × Option String
  | [], paths, acts => (paths.reverse, acts.reverse, none)
  | op :: rest, paths, acts =>
    match env.applyOp op targetFormat with
    | none => (paths.reverse, acts.reverse, some ("Operation " ++ op.type ++ " failed"))
    | some processedFormat =>
      let path := generatePath task.imageID op.type processedFormat op.parameters
      if env.saveProcessedOk path then
        processOps env task targetFormat rest ((op.type, path) :: paths)
          (Action.saveProcessed path :: acts)
      else
        (paths.reverse, (Action.saveProcessed path :: acts).reverse,
          some "Failed to save processed image")

/-- Source `ImageProcessor.Process`: decode once, then run the operation
loop; the result's status is `completed` exactly when no step failed. -/
def processorProcess (env : WorkerEnv) (task : ProcessingTask) :
    ProcessingResult × List Action × Option String :=
  if env.decodeOk = false then
    ({ status := StatusFailed, processedPaths := [], error := "Failed to decode image" },
      [], some "failed to decode image")
  else
    let targetFormat := if task.format = "" then env.decodedFormat else task.format
    match processOps env task targetFormat task.operations [] [] with
    | (paths, acts, some e) =>
      ({ status := StatusFailed, processedPaths := paths, error := e }, acts, some e)
    | (paths, acts, none) =>
      ({ status := StatusCompleted, processedPaths := paths, error := "" }, acts, none)

/-- Source `Worker.processMessage`: parse, fetch, read, process, then
record every `processed_images` row (insert failures only logged) and
the final status transition.  Returns the error (nil means the caller
will commit) and the action trace. -/
def processMessage (env : WorkerEnv) : Option String × List Action :=
  match env.parseTask with
  | none => (some "failed to unmarshal task", [])
  | some task =>
    let fetch := [Action.getObject task.originalPath]
    if env.getObjectOk = false then
      (some "failed to get original image",
        fetch ++ [Action.updateStatus task.imageID StatusFailed])
    else if env.readAllOk = false then
      (some "failed to read image",
        fetch ++ [Action.updateStatus task.imageID StatusFailed])
    else
      match processorProcess env task with
      | (_, pacts, some e) =>
        (some e, fetch ++ pacts ++ [Action.updateStatus task.imageID StatusFailed])
      | (result, pacts, none) =>
        let rowActs := result.processedPaths.map fun p =>
          Action.saveRow task.imageID p.1 p.2 (env.saveRowOk p.2)
        let statusAct :=
          if result.status = StatusCompleted then
            Action.updateStatus task.imageID StatusCompleted
          else
            Action.updateStatus task.imageID StatusFailed
        (none, fetch ++ pacts ++ rowActs ++ [statusAct])

/-- Source `Worker.processWorker`, one message: on a processing error the
message is only logged and the offset is not committed; on success the
offset commit is attempted.  The Bool is whether the commit was issued. -/
def handleMessage (env : WorkerEnv) (offset : Int) : Bool × List Action :=
  match processMessage env with
  | (some _, acts) => (false, acts)
  | (none, acts) => (true, acts ++ [Action.commitOffset offset])

end ImageProc

namespace ImageProc

/-! ## Helper lemmas -/

theorem goTruncQ_of_nonneg {q : ℚ} (h : 0 ≤ q) : goTruncQ q = ⌊q⌋ := by
  rw [goTruncQ, if_neg (not_lt.2 h)]

theorem goTruncQ_le_int {q : ℚ} {n : Int} (h0 : 0 ≤ q) (h : q ≤ (n : ℚ)) :
    goTruncQ q ≤ n := by
  rw [goTruncQ_of_nonneg h0]
  calc ⌊q⌋ ≤ ⌊(n : ℚ)⌋ := Int.floor_mono h
    _ = n := Int.floor_intCast n

/-! ## C10 -/

/-- C10: a content-type string containing none of the six recognised
format substrings is mapped by `getFormatFromContentType` to the tag
`jpeg`; the function never yields the empty string; and the task built by
`UploadImage` carries exactly this function applied to the detected
content type, so its format field is never empty. -/
theorem c10_task_format_never_empty :
    (∀ contentType : String,
      goContains contentType "jpeg" = false → goContains contentType "png" = false →
      goContains contentType "gif" = false → goContains contentType "webp" = false →
      goContains contentType "bmp" = false → goContains contentType "tiff" = false →
      getFormatFromContentType contentType = "jpeg") ∧
    (∀ contentType : String, getFormatFromContentType contentType ≠ "") ∧
    (∀ (env : UploadEnv) (payload : List Nat) (filename contentType : String)
        (fileSize : Int) (operations : List OperationParams) (task : ProcessingTask),
      (uploadImage env payload filename contentType fileSize operations).task = some task →
      task.format = getFormatFromContentType (env.detect (payload.take 512))) := by
  refine ⟨?_, ?_, ?_⟩
  · intro ct h1 h2 h3 h4 h5 h6
    rw [getFormatFromContentType]
    simp [h1, h2, h3, h4, h5, h6]
  · intro ct
    rw [getFormatFromContentType]
    split_ifs <;> simp
  · intro env payload filename contentType fileSize operations task h
    rw [uploadImage] at h
    by_cases h1 : fileSize > DefaultMaxUploadSize
    · simp [h1] at h
    by_cases h2 : payload = []
    · simp [h1, h2] at h
    by_cases h3 : goStartsWith (env.detect (payload.take 512)) "image/" = false
    · simp [h1, h2, h3] at h
    rcases hs : env.saveOriginalResult with _ | originalPath
    · simp [h1, h2, h3, hs] at h
    simp only [if_neg h1, if_neg h2, hs, if_neg h3] at h
    split_ifs at h <;> simp_all
    all_goals rw [← h]

/-- C10 witness: the theorem applied at the content type
`image/svg+xml`, which contains none of the six substrings. -/
theorem c10_witness : getFormatFromContentType "image/svg+xml" = "jpeg" :=
  c10_task_format_never_empty.1 "image/svg+xml" (by decide) (by decide) (by decide)
    (by decide) (by decide) (by decide)

/-! ## C7 -/

/-- C7 (amended): a path whose lexically cleaned form still escapes the
root, i.e. begins with `..` or contains `/../`, is rejected by
`sanitizePath` with the invalid-path error, and `GetObject` performs no
store I/O on it.  (A leading `/` is stripped, not rejected, and interior
`..` segments that cancel are collapsed and accepted; see the
counterexample.) -/
theorem c7_sanitize_rejects_escaping_paths (path : String)
    (h : goStartsWith (filepathClean path) ".." = true ∨
         goContains (filepathClean path) "/../" = true) :
    sanitizePath path = Except.error "invalid path: path traversal detected" ∧
    ∀ statOk : Bool,
      minioGetObject statOk path =
        (Except.error "invalid path: path traversal detected", []) := by
  have hs : sanitizePath path = Except.error "invalid path: path traversal detected" := by
    rw [sanitizePath]
    rcases h with h | h <;> simp [h]
  refine ⟨hs, fun statOk => ?_⟩
  rw [minioGetObject, hs]

/-- C7 witness: the rejection theorem applied to the concrete traversal
path `../secret`. -/
theorem c7_witness :
    sanitizePath "../secret" = Except.error "invalid path: path traversal detected" ∧
    minioGetObject true "../secret" =
      (Except.error "invalid path: path traversal detected", []) := by
  have h := c7_sanitize_rejects_escaping_paths "../secret" (Or.inl (by decide))
  exact ⟨h.1, h.2 true⟩

/-- C7 counterexample: `/etc/passwd` uses absolute-path syntax and
`a/../b` contains `..`, yet both are accepted (the leading `/` is
stripped, the interior `..` is collapsed) and store I/O is performed. -/
theorem c7_counterexample :
    goStartsWith "/etc/passwd" "/" = true ∧
    sanitizePath "/etc/passwd" = Except.ok "etc/passwd" ∧
    minioGetObject true "/etc/passwd" =
      (Except.ok "etc/passwd", [Action.getObject "etc/passwd"]) ∧
    goContains "a/../b" ".." = true ∧
    sanitizePath "a/../b" = Except.ok "b" ∧
    minioGetObject true "a/../b" = (Except.ok "b", [Action.getObject "b"]) := by
  decide

/-! ## C2 -/

/-- C2 (amended): a message whose payload fails to deserialize as a
ProcessingTask is only logged: the worker does NOT commit its offset
(and performs no further I/O), so the poison message may be redelivered.
(The claim that the offset is committed is refuted by the
counterexample.) -/
theorem c2_poison_message_not_committed (env : WorkerEnv) (offset : Int)
    (h : env.parseTask = none) :
    handleMessage env offset = (false, []) := by
  rw [handleMessage, processMessage, h]

/-- C2 witness: the theorem applied to a concrete environment whose
message payload does not parse. -/
theorem c2_witness :
    handleMessage
      { parseTask := none, getObjectOk := true, readAllOk := true, decodeOk := true,
        decodedFormat := "jpeg", applyOp := fun _ _ => some "jpeg",
        saveProcessedOk := fun _ => true, saveRowOk := fun _ => true } 7 = (false, []) :=
  c2_poison_message_not_committed _ 7 rfl

/-- C2 counterexample: for a concrete unparsable message the commit flag
is false and no commit action is issued, refuting the claim that the
worker acknowledges (commits) poison messages. -/
theorem c2_counterexample :
    (handleMessage
      { parseTask := none, getObjectOk := true, readAllOk := true, decodeOk := true,
        decodedFormat := "png", applyOp := fun _ _ => some "png",
        saveProcessedOk := fun _ => true, saveRowOk := fun _ => true } 3).1 = false ∧
    Action.commitOffset 3 ∉
      (handleMessage
        { parseTask := none, getObjectOk := true, readAllOk := true, decodeOk := true,
          decodedFormat := "png", applyOp := fun _ _ => some "png",
          saveProcessedOk := fun _ => true, saveRowOk := fun _ => true } 3).2 := by
  decide

/-! ## C5 -/

/-- C5 (amended): for every nonempty payload whose buffered header does
not classify as an `image/*` MIME type, `UploadImage` fails with
invalid-file-format before any store I/O, whatever the declared
Content-Type; the empty payload instead fails with the header-read error
(see the counterexample). -/
theorem c5_magic_byte_gate (env : UploadEnv) (payload : List Nat)
    (filename contentType : String) (fileSize : Int) (operations : List OperationParams)
    (hsize : ¬ fileSize > DefaultMaxUploadSize)
    (hpay : payload ≠ [])
    (hdet : goStartsWith (env.detect (payload.take 512)) "image/" = false) :
    uploadImage env payload filename contentType fileSize operations =
      ⟨Except.error UploadErr.invalidFileFormat, none, []⟩ := by
  rw [uploadImage]
  simp [hsize, hpay, hdet]

/-- C5 witness: a one-byte text payload declared as `image/jpeg` is
still rejected as invalid-file-format, with no I/O. -/
theorem c5_witness :
    uploadImage
      { detect := fun _ => "text/plain; charset=utf-8", imageID := "img1",
        taskID := "t1", saveOriginalResult := some "original/2025/10/11/1.jpg",
        dbSaveOk := true, marshalOk := true, sendTaskOk := true,
        updateProcessingOk := true } [72] "evil.jpg" "image/jpeg" 4 [] =
      ⟨Except.error UploadErr.invalidFileFormat, none, []⟩ :=
  c5_magic_byte_gate _ _ _ _ _ _ (by decide) (by decide) (by decide)

/-- C5 counterexample: the empty payload does not classify as `image/*`
either, but `UploadImage` fails with the header-read failure (io.EOF
from `io.ReadFull`), not with invalid-file-format. -/
theorem c5_counterexample :
    uploadImage
      { detect := fun _ => "text/plain; charset=utf-8", imageID := "img1",
        taskID := "t1", saveOriginalResult := some "original/2025/10/11/1.jpg",
        dbSaveOk := true, marshalOk := true, sendTaskOk := true,
        updateProcessingOk := true } [] "evil.jpg" "image/jpeg" 0 [] =
      ⟨Except.error UploadErr.readHeader, none, []⟩ ∧
    UploadErr.readHeader ≠ UploadErr.invalidFileFormat := by
  decide

/-! ## C4 -/

/-- C4: when the original object is stored and the DB metadata insert
fails, `UploadImage` deletes the stored object as a compensating action
and returns the database error, so the object at `original_path` never
remains in the store after the call. -/
theorem c4_db_failure_compensation (env : UploadEnv) (payload : List Nat)
    (filename contentType : String) (fileSize : Int) (operations : List OperationParams)
    (originalPath : String)
    (hsize : ¬ fileSize > DefaultMaxUploadSize)
    (hpay : payload ≠ [])
    (hdet : goStartsWith (env.detect (payload.take 512)) "image/" = true)
    (hsave : env.saveOriginalResult = some originalPath)
    (hdb : env.dbSaveOk = false) :
    uploadImage env payload filename contentType fileSize operations =
      ⟨Except.error UploadErr.databaseError, none,
        [Action.saveOriginal filename, Action.dbSave env.imageID,
         Action.deleteObject originalPath]⟩ ∧
    ∀ store : List String,
      originalPath ∉
        runStore store (uploadImage env payload filename contentType fileSize operations).actions := by
  have hout : uploadImage env payload filename contentType fileSize operations =
      ⟨Except.error UploadErr.databaseError, none,
        [Action.saveOriginal filename, Action.dbSave env.imageID,
         Action.deleteObject originalPath]⟩ := by
    rw [uploadImage]
    simp [hsize, hpay, hdet, hsave, hdb]
  refine ⟨hout, fun store => ?_⟩
  rw [hout]
  simp [runStore, applyActionStore, List.mem_filter]

/-- C4 witness: the compensation theorem at a concrete upload whose DB
insert fails. -/
theorem c4_witness :
    uploadImage
      { detect := fun _ => "image/png", imageID := "img1", taskID := "t1",
        saveOriginalResult := some "original/2025/10/11/1.png",
        dbSaveOk := false, marshalOk := true, sendTaskOk := true,
        updateProcessingOk := true } [137] "photo.png" "image/png" 4 [] =
      ⟨Except.error UploadErr.databaseError, none,
        [Action.saveOriginal "photo.png", Action.dbSave "img1",
         Action.deleteObject "original/2025/10/11/1.png"]⟩ ∧
    "original/2025/10/11/1.png" ∉
      runStore ["original/2025/10/11/1.png"]
        (uploadImage
          { detect := fun _ => "image/png", imageID := "img1", taskID := "t1",
            saveOriginalResult := some "original/2025/10/11/1.png",
            dbSaveOk := false, marshalOk := true, sendTaskOk := true,
            updateProcessingOk := true } [137] "photo.png" "image/png" 4 []).actions := by
  have h := c4_db_failure_compensation
    { detect := fun _ => "image/png", imageID := "img1", taskID := "t1",
      saveOriginalResult := some "original/2025/10/11/1.png",
      dbSaveOk := false, marshalOk := true, sendTaskOk := true,
      updateProcessingOk := true } [137] "photo.png" "image/png" 4 []
    "original/2025/10/11/1.png" (by decide) (by decide) (by decide) rfl rfl
  exact ⟨h.1, h.2 ["original/2025/10/11/1.png"]⟩

/-! ## C3 -/

/-- C3 (amended): when the store write and the DB insert succeed but the
broker publish fails, `UploadImage` attempts the best-effort transition
to `failed` and returns the message-queue error; however the deferred
cleanup then deletes the stored object at `original_path`, so the
original does NOT remain in the store (the deletion is the last action of
the call). -/
theorem c3_publish_failure_deletes_original (env : UploadEnv) (payload : List Nat)
    (filename contentType : String) (fileSize : Int) (operations : List OperationParams)
    (originalPath : String)
    (hsize : ¬ fileSize > DefaultMaxUploadSize)
    (hpay : payload ≠ [])
    (hdet : goStartsWith (env.detect (payload.take 512)) "image/" = true)
    (hsave : env.saveOriginalResult = some originalPath)
    (hdb : env.dbSaveOk = true) (hmar : env.marshalOk = true)
    (hsend : env.sendTaskOk = false) :
    uploadImage env payload filename contentType fileSize operations =
      ⟨Except.error UploadErr.messageQueueError,
        some { id := env.taskID, imageID := env.imageID, originalPath := originalPath,
               bucket := "images", operations := operations,
               format := getFormatFromContentType (env.detect (payload.take 512)) },
        [Action.saveOriginal filename, Action.dbSave env.imageID,
         Action.sendTask env.imageID, Action.updateStatus env.imageID StatusFailed,
         Action.deleteObject originalPath]⟩ := by
  rw [uploadImage]
  simp [hsize, hpay, hdet, hsave, hdb, hmar, hsend]

/-- C3 witness: the theorem at a concrete upload whose broker publish
fails after the object and the metadata were persisted. -/
theorem c3_witness :
    uploadImage
      { detect := fun _ => "image/jpeg", imageID := "img2", taskID := "t2",
        saveOriginalResult := some "original/2025/10/11/2.jpg",
        dbSaveOk := true, marshalOk := true, sendTaskOk := false,
        updateProcessingOk := true } [255] "photo.jpg" "image/jpeg" 4 [] =
      ⟨Except.error UploadErr.messageQueueError,
        some { id := "t2", imageID := "img2", originalPath := "original/2025/10/11/2.jpg",
               bucket := "images", operations := [], format := "jpeg" },
        [Action.saveOriginal "photo.jpg", Action.dbSave "img2",
         Action.sendTask "img2", Action.updateStatus "img2" StatusFailed,
         Action.deleteObject "original/2025/10/11/2.jpg"]⟩ := by
  rw [c3_publish_failure_deletes_original
    { detect := fun _ => "image/jpeg", imageID := "img2", taskID := "t2",
      saveOriginalResult := some "original/2025/10/11/2.jpg",
      dbSaveOk := true, marshalOk := true, sendTaskOk := false,
      updateProcessingOk := true } [255] "photo.jpg" "image/jpeg" 4 []
    "original/2025/10/11/2.jpg" (by decide) (by decide) (by decide) rfl rfl rfl rfl]
  decide

/-- C3 counterexample: on a concrete publish-failure run the stored
original is deleted by the deferred cleanup — the claim that the object
remains at `original_path` is false: running the issued actions against a
store holding the original leaves an empty store. -/
theorem c3_counterexample :
    Action.deleteObject "original/2025/10/11/3.jpg" ∈
      (uploadImage
        { detect := fun _ => "image/jpeg", imageID := "img3", taskID := "t3",
          saveOriginalResult := some "original/2025/10/11/3.jpg",
          dbSaveOk := true, marshalOk := true, sendTaskOk := false,
          updateProcessingOk := true } [255] "p.jpg" "image/jpeg" 4 []).actions ∧
    runStore ["original/2025/10/11/3.jpg"]
      (uploadImage
        { detect := fun _ => "image/jpeg", imageID := "img3", taskID := "t3",
          saveOriginalResult := some "original/2025/10/11/3.jpg",
          dbSaveOk := true, marshalOk := true, sendTaskOk := false,
          updateProcessingOk := true } [255] "p.jpg" "image/jpeg" 4 []).actions = [] := by
  decide

/-! ## C6 -/

/-- C6 (the claim is right, the code is wrong): `DeleteImage` removes the
original and issues a bulk deletion under the prefix `processed/{id}/`,
but the derived-path generator writes artifacts under
`processed/thumbnails/{id}/`, `processed/resize/{id}/` and
`processed/watermarked/{id}/`, none of which extend that prefix — so a
successful delete leaves every derived artifact in the object store.
The run below evaluates the code at a concrete fully-processed image. -/
theorem c6_delete_misses_generated_artifacts :
    (deleteImage
      (some { id := "0f8c2de1", mimeType := "image/jpeg", status := StatusCompleted,
              originalPath := "original/2025/10/11/1.jpg" }) true "0f8c2de1").1 =
      Except.ok () ∧
    generatePath "0f8c2de1" "thumbnail" "jpeg" [("size", GoValue.int 200)] =
      "processed/thumbnails/0f8c2de1/200.jpeg" ∧
    generatePath "0f8c2de1" "resize" "jpeg"
        [("width", GoValue.int 1024), ("height", GoValue.int 768)] =
      "processed/resize/0f8c2de1/1024x768.jpeg" ∧
    generatePath "0f8c2de1" "watermark" "jpeg" [] =
      "processed/watermarked/0f8c2de1/watermarked.jpeg" ∧
    Action.deleteObjectsUnder "processed/0f8c2de1/" ∈
      (deleteImage
        (some { id := "0f8c2de1", mimeType := "image/jpeg", status := StatusCompleted,
                originalPath := "original/2025/10/11/1.jpg" }) true "0f8c2de1").2 ∧
    Action.updateStatus "0f8c2de1" StatusDeleted ∈
      (deleteImage
        (some { id := "0f8c2de1", mimeType := "image/jpeg", status := StatusCompleted,
                originalPath := "original/2025/10/11/1.jpg" }) true "0f8c2de1").2 ∧
    runStore
      ["original/2025/10/11/1.jpg",
       "processed/thumbnails/0f8c2de1/200.jpeg",
       "processed/resize/0f8c2de1/1024x768.jpeg",
       "processed/watermarked/0f8c2de1/watermarked.jpeg"]
      (deleteImage
        (some { id := "0f8c2de1", mimeType := "image/jpeg", status := StatusCompleted,
                originalPath := "original/2025/10/11/1.jpg" }) true "0f8c2de1").2 =
      ["processed/thumbnails/0f8c2de1/200.jpeg",
       "processed/resize/0f8c2de1/1024x768.jpeg",
       "processed/watermarked/0f8c2de1/watermarked.jpeg"] := by
  decide

/-! ## C9 -/

/-- C9: a malformed font_color string — wrong number of comma-separated
components, or a non-numeric component among the first three — never
fails the watermark operation: `parseColor` returns the fallback white
colour whose alpha is `uint8(255 * opacity)` (together with an error the
caller swallows), the watermark is still drawn with the black fallback of
the same alpha, and the operation succeeds. -/
theorem c9_malformed_color_never_fails (env : WatermarkEnv) (format s : String)
    (params : GoParams) (q : ℚ)
    (hfont : env.fontLoaded = true) (hdraw : env.drawOk = true) (henc : env.encodeOk = true)
    (hcol : watermarkFontColor params = s)
    (hop : watermarkOpacity params = q)
    (hmal : ((goSplitChar (goRemoveSpaces s) ',').length ≠ 3 ∧
             (goSplitChar (goRemoveSpaces s) ',').length ≠ 4) ∨
            goAtoi ((goSplitChar (goRemoveSpaces s) ',').getD 0 "") = none ∨
            goAtoi ((goSplitChar (goRemoveSpaces s) ',').getD 1 "") = none ∨
            goAtoi ((goSplitChar (goRemoveSpaces s) ',').getD 2 "") = none) :
    parseColor s q = (⟨255, 255, 255, uint8OfQ (255 * q)⟩, true) ∧
    ∃ outFormat, watermarkProcess env format params =
      Except.ok (⟨0, 0, 0, uint8OfQ (255 * q)⟩, outFormat) := by
  have hparse : parseColor s q = (⟨255, 255, 255, uint8OfQ (255 * q)⟩, true) := by
    by_cases hlen : (goSplitChar (goRemoveSpaces s) ',').length ≠ 3 ∧
        (goSplitChar (goRemoveSpaces s) ',').length ≠ 4
    · simp only [parseColor]
      rw [if_pos hlen]
    · rcases h0 : goAtoi ((goSplitChar (goRemoveSpaces s) ',').getD 0 "") with _ | r <;>
        rcases h1 : goAtoi ((goSplitChar (goRemoveSpaces s) ',').getD 1 "") with _ | g <;>
          rcases h2 : goAtoi ((goSplitChar (goRemoveSpaces s) ',').getD 2 "") with _ | b <;>
            simp_all [parseColor]
  refine ⟨hparse, ?_⟩
  simp only [watermarkProcess, hcol, hop, addTextWatermark, hfont, hdraw, henc, hparse]
  simp only [Bool.true_eq_false, if_false]
  exact ⟨_, rfl⟩

/-- C9 witness: the theorem at the malformed colour string `red` with
opacity 1/2 (so the fallback alpha is `uint8(127.5) = 127`). -/
theorem c9_witness :
    parseColor "red" (1 / 2) = (⟨255, 255, 255, 127⟩, true) ∧
    ∃ outFormat,
      watermarkProcess ⟨true, true, true⟩ "png"
        [("font_color", GoValue.str "red"), ("opacity", GoValue.float (1 / 2))] =
      Except.ok (⟨0, 0, 0, 127⟩, outFormat) := by
  have halpha : uint8OfQ (255 * (1 / 2 : ℚ)) = 127 := by
    rw [uint8OfQ, goTruncQ]
    norm_num
    decide
  have hop : watermarkOpacity
      [("font_color", GoValue.str "red"), ("opacity", GoValue.float (1 / 2))] = 1 / 2 := by
    have hlookup : lookupParam
        [("font_color", GoValue.str "red"), ("opacity", GoValue.float (1 / 2))] "opacity" =
        some (GoValue.float (1 / 2)) := rfl
    unfold watermarkOpacity
    rw [hlookup]
    norm_num
  have h := c9_malformed_color_never_fails ⟨true, true, true⟩ "png" "red"
    [("font_color", GoValue.str "red"), ("opacity", GoValue.float (1 / 2))] (1 / 2)
    rfl rfl rfl rfl hop (Or.inl (by decide))
  rw [halpha] at h
  exact h

/-! ## C8 -/

/-- C8 (amended): for a keep-aspect resize with positive requested box
and positive source dimensions, the output dimensions are the
truncations toward zero (Go `int(...)`, not round-to-nearest) of
`orig × f` with `f = min(width/origWidth, height/origHeight)`, and the
output fits inside the requested box. -/
theorem c8_resize_keep_aspect (origWidth origHeight width height : Int)
    (format : String) (params : GoParams)
    (how : 0 < origWidth) (hoh : 0 < origHeight)
    (hw : 0 < width) (hh : 0 < height)
    (hpw : probeNumeric params "width" = some width)
    (hph : probeNumeric params "height" = some height)
    (hka : probeBool params "keep_aspect" = true) :
    resizerProcess true origWidth origHeight format params =
      Except.ok
        (goTruncQ ((origWidth : ℚ) *
            min ((width : ℚ) / (origWidth : ℚ)) ((height : ℚ) / (origHeight : ℚ))),
         goTruncQ ((origHeight : ℚ) *
            min ((width : ℚ) / (origWidth : ℚ)) ((height : ℚ) / (origHeight : ℚ))),
         if goToLower format = "gif" then "gif"
         else if goToLower format = "jpg" ∨ goToLower format = "jpeg" then "jpeg"
         else if goToLower format = "png" then "png"
         else "jpeg") ∧
    goTruncQ ((origWidth : ℚ) *
        min ((width : ℚ) / (origWidth : ℚ)) ((height : ℚ) / (origHeight : ℚ))) ≤ width ∧
    goTruncQ ((origHeight : ℚ) *
        min ((width : ℚ) / (origWidth : ℚ)) ((height : ℚ) / (origHeight : ℚ))) ≤ height := by
  have howq : (0 : ℚ) < (origWidth : ℚ) := by exact_mod_cast how
  have hohq : (0 : ℚ) < (origHeight : ℚ) := by exact_mod_cast hoh
  have hwq : (0 : ℚ) < (width : ℚ) := by exact_mod_cast hw
  have hhq : (0 : ℚ) < (height : ℚ) := by exact_mod_cast hh
  have hf0 : 0 ≤ min ((width : ℚ) / (origWidth : ℚ)) ((height : ℚ) / (origHeight : ℚ)) :=
    le_min (div_pos hwq howq).le (div_pos hhq hohq).le
  have hb1 : (origWidth : ℚ) *
      min ((width : ℚ) / (origWidth : ℚ)) ((height : ℚ) / (origHeight : ℚ)) ≤ (width : ℚ) := by
    have h1 := mul_le_mul_of_nonneg_left
      (min_le_left ((width : ℚ) / (origWidth : ℚ)) ((height : ℚ) / (origHeight : ℚ))) howq.le
    have h2 : (origWidth : ℚ) * ((width : ℚ) / (origWidth : ℚ)) = (width : ℚ) := by
      field_simp
    exact h1.trans h2.le
  have hb2 : (origHeight : ℚ) *
      min ((width : ℚ) / (origWidth : ℚ)) ((height : ℚ) / (origHeight : ℚ)) ≤ (height : ℚ) := by
    have h1 := mul_le_mul_of_nonneg_left
      (min_le_right ((width : ℚ) / (origWidth : ℚ)) ((height : ℚ) / (origHeight : ℚ))) hohq.le
    have h2 : (origHeight : ℚ) * ((height : ℚ) / (origHeight : ℚ)) = (height : ℚ) := by
      field_simp
    exact h1.trans h2.le
  refine ⟨?_, goTruncQ_le_int (mul_nonneg howq.le hf0) hb1,
    goTruncQ_le_int (mul_nonneg hohq.le hf0) hb2⟩
  unfold resizerProcess
  rw [hpw, hph]
  simp [not_le.2 hw, not_le.2 hh, hka, keepAspectDims]

/-- C8 witness: a 4×2 source resized into a 2×2 box with keep_aspect
gives 2×1 output (factor 1/2). -/
theorem c8_witness :
    resizerProcess true 4 2 "png"
      [("width", GoValue.int 2), ("height", GoValue.int 2),
       ("keep_aspect", GoValue.bool true)] = Except.ok (2, 1, "png") := by
  have h := c8_resize_keep_aspect 4 2 2 2 "png"
    [("width", GoValue.int 2), ("height", GoValue.int 2), ("keep_aspect", GoValue.bool true)]
    (by norm_num) (by norm_num) (by norm_num) (by norm_num) rfl rfl rfl
  rw [h.1]
  have hmin : min (((2 : Int) : ℚ) / ((4 : Int) : ℚ)) (((2 : Int) : ℚ) / ((2 : Int) : ℚ)) =
      1 / 2 := by
    rw [min_eq_left] <;> push_cast <;> norm_num
  rw [hmin]
  have ht1 : goTruncQ (((4 : Int) : ℚ) * (1 / 2)) = 2 := by
    rw [goTruncQ]
    push_cast
    norm_num
  have ht2 : goTruncQ (((2 : Int) : ℚ) * (1 / 2)) = 1 := by
    rw [goTruncQ]
    push_cast
    norm_num
  rw [ht1, ht2]
  decide

/-- C8 counterexample: a 5×3 source resized into a 3×3 box. The exact
factor is 3/5, so the claimed heights are round(3 × 3/5) = round(1.8) =
2, but the code truncates and produces height 1. -/
theorem c8_counterexample :
    resizerProcess true 5 3 "jpeg"
      [("width", GoValue.int 3), ("height", GoValue.int 3),
       ("keep_aspect", GoValue.bool true)] = Except.ok (3, 1, "jpeg") ∧
    round ((3 : ℚ) * min ((3 : ℚ) / (5 : ℚ)) ((3 : ℚ) / (3 : ℚ))) = 2 ∧
    (1 : Int) ≠ 2 := by
  refine ⟨?_, ?_, by decide⟩
  · have hmin : min (((3 : Int) : ℚ) / ((5 : Int) : ℚ)) (((3 : Int) : ℚ) / ((3 : Int) : ℚ)) =
        3 / 5 := by
      rw [min_eq_left] <;> push_cast <;> norm_num
    have ht1 : goTruncQ (((5 : Int) : ℚ) * (3 / 5)) = 3 := by
      rw [goTruncQ]
      push_cast
      norm_num
    have ht2 : goTruncQ (((3 : Int) : ℚ) * (3 / 5)) = 1 := by
      rw [goTruncQ]
      push_cast
      norm_num
    unfold resizerProcess
    rw [show probeNumeric
        [("width", GoValue.int 3), ("height", GoValue.int 3),
         ("keep_aspect", GoValue.bool true)] "width" = some 3 from rfl]
    rw [show probeNumeric
        [("width", GoValue.int 3), ("height", GoValue.int 3),
         ("keep_aspect", GoValue.bool true)] "height" = some 3 from rfl]
    simp only [keepAspectDims, hmin, ht1, ht2]
    norm_num
    decide
  · have hmin : min ((3 : ℚ) / (5 : ℚ)) ((3 : ℚ) / (3 : ℚ)) = 3 / 5 := by
      rw [min_eq_left] <;> norm_num
    rw [hmin, round_eq]
    norm_num

/-! ## C1 -/

/-- Helper for C1: the operation loop of `ImageProcessor.Process` on a
task whose operations are `pre ++ badOp :: rest`, where every operation
in `pre` applies and stores successfully and the artifact write of
`badOp` fails: the loop stops at `badOp` with the store-write error,
having issued exactly the writes for `pre` and the failing write. -/
theorem processOps_append_fail (env : WorkerEnv) (task : ProcessingTask) (tf : String)
    (badOp : OperationParams) (rest : List OperationParams)
    (pf : OperationParams → String)
    (hbadApply : env.applyOp badOp tf = some (pf badOp))
    (hbadSave : env.saveProcessedOk
      (generatePath task.imageID badOp.type (pf badOp) badOp.parameters) = false) :
    ∀ (pre : List OperationParams),
      (∀ op ∈ pre, env.applyOp op tf = some (pf op)) →
      (∀ op ∈ pre, env.saveProcessedOk
          (generatePath task.imageID op.type (pf op) op.parameters) = true) →
      ∀ (paths : List (String × String)) (acts : List Action),
        processOps env task tf (pre ++ badOp :: rest) paths acts =
          (paths.reverse ++ pre.map (fun op =>
              (op.type, generatePath task.imageID op.type (pf op) op.parameters)),
           acts.reverse ++ pre.map (fun op =>
              Action.saveProcessed (generatePath task.imageID op.type (pf op) op.parameters)) ++
             [Action.saveProcessed
               (generatePath task.imageID badOp.type (pf badOp) badOp.parameters)],
           some "Failed to save processed image") := by
  intro pre
  induction pre with
  | nil =>
    intro _ _ paths acts
    rw [List.nil_append]
    simp [processOps, hbadApply, hbadSave]
  | cons op pre ih =>
    intro happly hsave paths acts
    have h1 : env.applyOp op tf = some (pf op) := happly op (List.mem_cons_self op pre)
    have h2 : env.saveProcessedOk
        (generatePath task.imageID op.type (pf op) op.parameters) = true :=
      hsave op (List.mem_cons_self op pre)
    rw [List.cons_append]
    simp only [processOps, h1, h2, if_true]
    rw [ih (fun o ho => happly o (List.mem_cons_of_mem op ho))
      (fun o ho => hsave o (List.mem_cons_of_mem op ho))]
    simp

/-- C1 (amended): when writing a produced artifact to the object store
fails, the worker marks the image failed, the pipeline stops at that
operation (no write is issued for any later operation), and the offset
is NOT committed.  (The other half of the original claim is false: a
failing ProcessedImage row insert is only logged, the image is still
marked completed and the offset IS committed — see the counterexample.) -/
theorem c1_store_write_failure_no_commit (env : WorkerEnv) (offset : Int)
    (task : ProcessingTask) (pre : List OperationParams) (badOp : OperationParams)
    (rest : List OperationParams) (pf : OperationParams → String)
    (hparse : env.parseTask = some task)
    (hops : task.operations = pre ++ badOp :: rest)
    (hget : env.getObjectOk = true) (hread : env.readAllOk = true)
    (hdec : env.decodeOk = true)
    (hfmt : task.format ≠ "")
    (happly : ∀ op ∈ pre, env.applyOp op task.format = some (pf op))
    (hsaveok : ∀ op ∈ pre, env.saveProcessedOk
        (generatePath task.imageID op.type (pf op) op.parameters) = true)
    (hbadApply : env.applyOp badOp task.format = some (pf badOp))
    (hbadSave : env.saveProcessedOk
        (generatePath task.imageID badOp.type (pf badOp) badOp.parameters) = false) :
    handleMessage env offset =
      (false,
        Action.getObject task.originalPath ::
          (pre.map (fun op =>
            Action.saveProcessed (generatePath task.imageID op.type (pf op) op.parameters)) ++
           [Action.saveProcessed
              (generatePath task.imageID badOp.type (pf badOp) badOp.parameters),
            Action.updateStatus task.imageID StatusFailed])) := by
  have hloop := processOps_append_fail env task task.format badOp rest pf hbadApply hbadSave
    pre happly hsaveok [] []
  unfold handleMessage processMessage processorProcess
  rw [hparse]
  simp only [hget, hread, hdec, if_neg hfmt, hops, hloop]
  simp

/-- C1 witness: a single-operation task whose artifact write fails: the
image is marked failed and the offset is not committed. -/
theorem c1_witness :
    handleMessage
      { parseTask := some
          { id := "t1", imageID := "img1", originalPath := "original/x.jpg",
            bucket := "images",
            operations := [{ type := "thumbnail", parameters := [("size", GoValue.int 200)] }],
            format := "jpeg" },
        getObjectOk := true, readAllOk := true, decodeOk := true, decodedFormat := "jpeg",
        applyOp := fun _ _ => some "jpeg",
        saveProcessedOk := fun _ => false, saveRowOk := fun _ => true } 9 =
      (false, [Action.getObject "original/x.jpg",
        Action.saveProcessed "processed/thumbnails/img1/200.jpeg",
        Action.updateStatus "img1" StatusFailed]) := by
  have h := c1_store_write_failure_no_commit
    { parseTask := some
        { id := "t1", imageID := "img1", originalPath := "original/x.jpg",
          bucket := "images",
          operations := [{ type := "thumbnail", parameters := [("size", GoValue.int 200)] }],
          format := "jpeg" },
      getObjectOk := true, readAllOk := true, decodeOk := true, decodedFormat := "jpeg",
      applyOp := fun _ _ => some "jpeg",
      saveProcessedOk := fun _ => false, saveRowOk := fun _ => true } 9
    { id := "t1", imageID := "img1", originalPath := "original/x.jpg", bucket := "images",
      operations := [{ type := "thumbnail", parameters := [("size", GoValue.int 200)] }],
      format := "jpeg" }
    [] { type := "thumbnail", parameters := [("size", GoValue.int 200)] } []
    (fun _ => "jpeg") rfl rfl rfl rfl rfl (by decide)
    (fun op h => absurd h (List.not_mem_nil op))
    (fun op h => absurd h (List.not_mem_nil op)) rfl rfl
  exact h.trans (by decide)

/-- C1 counterexample: when every step succeeds except the
`processed_images` row insert, the worker logs the failure, still marks
the image completed and still commits the offset — refuting the claim
that a failing row insert marks the image failed and prevents the ack. -/
theorem c1_row_insert_failure_still_commits :
    handleMessage
      { parseTask := some
          { id := "t1", imageID := "img1", originalPath := "original/x.jpg",
            bucket := "images",
            operations := [{ type := "thumbnail", parameters := [("size", GoValue.int 200)] }],
            format := "jpeg" },
        getObjectOk := true, readAllOk := true, decodeOk := true, decodedFormat := "jpeg",
        applyOp := fun _ _ => some "jpeg",
        saveProcessedOk := fun _ => true, saveRowOk := fun _ => false } 5 =
      (true, [Action.getObject "original/x.jpg",
        Action.saveProcessed "processed/thumbnails/img1/200.jpeg",
        Action.saveRow "img1" "thumbnail" "processed/thumbnails/img1/200.jpeg" false,
        Action.updateStatus "img1" StatusCompleted,
        Action.commitOffset 5]) := by
  decide

end ImageProc
